import Mathlib

/-!
Shallow embedding of the Kettlebell-VBT analysis API (src/api/analyze.js,
together with the duplicate implementation kept in src/unnamed/part_000).

Modeling conventions: JavaScript numbers are modeled as exact rationals
(the repository only manipulates small decimal literals, and the spec
states its numeric examples "within floating-point tolerance"); JS strings
are Lean strings or character lists; the values produced by JSON.parse are
the `Json` inductive below; JSON.parse itself is a fuel-indexed
recursive-descent parser of the JSON grammar returning `Option Json`.
Code that can throw a TypeError (`getArmContext` when `startingArm` is
absent, and the request handler around it) is modeled in `Except`.
-/

namespace VBT

/-- JSON values as produced by JSON.parse; numbers are exact rationals. -/
inductive Json where
  | null : Json
  | bool (b : Bool) : Json
  | num (q : ℚ) : Json
  | str (s : String) : Json
  | arr (elems : List Json) : Json
  | obj (fields : List (String × Json)) : Json

instance : Inhabited Json := ⟨Json.null⟩

/-- Property lookup on the key/value list of a JSON object.  JSON.parse lets a
later duplicate key overwrite an earlier one, so the LAST binding wins. -/
def objLookup (kvs : List (String × Json)) (k : String) : Option Json :=
  match kvs with
  | [] => none
  | (k', v) :: rest =>
    match objLookup rest k with
    | some w => some w
    | none => if k' = k then some v else none

/-- JS property access `v[k]` on a parsed JSON value: defined on objects,
`undefined` (i.e. `none`) on every other value. -/
def Json.getField : Json → String → Option Json
  | Json.obj kvs, k => objLookup kvs k
  | _, _ => none

/-- JS truthiness of a parsed JSON value (`undefined` is `Option.none` at the
use sites): `false`, `0`, the empty string and `null` are falsy; arrays and
objects are always truthy. -/
def jsTruthy : Json → Bool
  | Json.null => false
  | Json.bool b => b
  | Json.num q => decide (q ≠ 0)
  | Json.str s => decide (s ≠ "")
  | Json.arr _ => true
  | Json.obj _ => true

/-- The JS `a || d` defaulting idiom applied to a possibly-undefined value. -/
def jsOr (v : Option Json) (d : Json) : Json :=
  match v with
  | some x => if jsTruthy x then x else d
  | none => d

/-- `v?.k` / `a.b?.c` style double access: `data.getField k1` then `.k2`,
yielding `undefined` when the first step gives `undefined`, `null`, or a
non-object. -/
def optChain (d : Json) (k1 k2 : String) : Option Json :=
  (d.getField k1).bind (fun v => v.getField k2)

/-- JS `v?.length`: the element count for an array, the character count for a
string, the `length` property for an object, `undefined` otherwise. -/
def jsLength : Option Json → Option Json
  | some (Json.arr xs) => some (Json.num (xs.length : ℚ))
  | some (Json.str s) => some (Json.num (s.length : ℚ))
  | some (Json.obj kvs) => objLookup kvs "length"
  | _ => none

/-- `rep[field] || 0` with the rep data modeled as parsed JSON carrying
numeric measurements: a numeric property is returned as is (a reported `0`
is falsy, so `0 || 0` is still `0`), and an absent or non-numeric property
contributes `0`. -/
def jsNumOr0 : Option Json → ℚ
  | some (Json.num q) => q
  | _ => 0

/-!  ### JSON.parse

A fuel-indexed recursive-descent parser of the JSON grammar (objects,
arrays, strings with escapes, numbers with fraction and exponent, the three
literals), consuming leading whitespace per element as JSON.parse does.
-/

/-- The four JSON whitespace characters. -/
def isJsonWs (c : Char) : Bool :=
  c = ' ' || c = '\t' || c = '\n' || c = '\r'

/-- Drop leading JSON whitespace. -/
def skipWs (s : List Char) : List Char := s.dropWhile isJsonWs

/-- Split a character list into its leading run of decimal digits and the rest. -/
def takeDigits : List Char → List Char × List Char
  | [] => ([], [])
  | c :: cs =>
    if c.isDigit then
      let p := takeDigits cs
      (c :: p.1, p.2)
    else ([], c :: cs)

/-- Numeric value of a digit run. -/
def digitsToNat (ds : List Char) : Nat :=
  ds.foldl (fun acc c => acc * 10 + (c.toNat - 48)) 0

/-- Value of a hexadecimal digit, if any. -/
def hexDigitVal (c : Char) : Option Nat :=
  if c.isDigit then some (c.toNat - 48)
  else if 'a' ≤ c ∧ c ≤ 'f' then some (c.toNat - 87)
  else if 'A' ≤ c ∧ c ≤ 'F' then some (c.toNat - 55)
  else none

/-- Value of four hexadecimal digits. -/
def hex4 (h1 h2 h3 h4 : Char) : Option Nat :=
  match hexDigitVal h1, hexDigitVal h2, hexDigitVal h3, hexDigitVal h4 with
  | some a, some b, some c, some d => some (((a * 16 + b) * 16 + c) * 16 + d)
  | _, _, _, _ => none

/-- Exponent suffix of a JSON number, applied to the mantissa `q`. -/
def parseExpPart (q : ℚ) (s : List Char) : Option (ℚ × List Char) :=
  let sp : Bool × List Char :=
    match s with
    | '+' :: r => (false, r)
    | '-' :: r => (true, r)
    | _ => (false, s)
  match takeDigits sp.2 with
  | ([], _) => none
  | (eds, r) =>
    let e := digitsToNat eds
    some ((if sp.1 then q / (10 : ℚ) ^ e else q * (10 : ℚ) ^ e), r)

/-- A JSON number: `-? (0 | [1-9][0-9]*) (. [0-9]+)? ([eE][+-]?[0-9]+)?`,
evaluated exactly in `ℚ`. -/
def parseNumber (s : List Char) : Option (ℚ × List Char) :=
  let sp : Bool × List Char :=
    match s with
    | '-' :: r => (true, r)
    | _ => (false, s)
  match takeDigits sp.2 with
  | ([], _) => none
  | (ids, s2) =>
    if 1 < ids.length ∧ ids.headI = '0' then none
    else
      let ipart : ℚ := (digitsToNat ids : ℕ)
      let step2 : Option (ℚ × List Char) :=
        match s2 with
        | '.' :: rest =>
          match takeDigits rest with
          | ([], _) => none
          | (fds, r) =>
            some (ipart + (digitsToNat fds : ℚ) / (10 : ℚ) ^ fds.length, r)
        | _ => some (ipart, s2)
      match step2 with
      | none => none
      | some (q1, s3) =>
        let step3 : Option (ℚ × List Char) :=
          match s3 with
          | 'e' :: rest => parseExpPart q1 rest
          | 'E' :: rest => parseExpPart q1 rest
          | _ => some (q1, s3)
        match step3 with
        | none => none
        | some (q2, s4) => some ((if sp.1 then -q2 else q2), s4)

/-- Body of a JSON string after the opening quote: ordinary characters are
any code point at or above `0x20` other than the quote and the backslash;
escapes cover the eight short forms and `\uXXXX`, with surrogate pairs
combined into one scalar value. -/
def parseStrChars : Nat → List Char → Option (List Char × List Char)
  | 0, _ => none
  | Nat.succ fuel, s =>
    match s with
    | [] => none
    | '"' :: rest => some ([], rest)
    | '\\' :: esc =>
      match esc with
      | '"' :: r => (parseStrChars fuel r).map (fun p => ('"' :: p.1, p.2))
      | '\\' :: r => (parseStrChars fuel r).map (fun p => ('\\' :: p.1, p.2))
      | '/' :: r => (parseStrChars fuel r).map (fun p => ('/' :: p.1, p.2))
      | 'b' :: r => (parseStrChars fuel r).map (fun p => ('\x08' :: p.1, p.2))
      | 'f' :: r => (parseStrChars fuel r).map (fun p => ('\x0c' :: p.1, p.2))
      | 'n' :: r => (parseStrChars fuel r).map (fun p => ('\n' :: p.1, p.2))
      | 'r' :: r => (parseStrChars fuel r).map (fun p => ('\r' :: p.1, p.2))
      | 't' :: r => (parseStrChars fuel r).map (fun p => ('\t' :: p.1, p.2))
      | 'u' :: h1 :: h2 :: h3 :: h4 :: r =>
        match hex4 h1 h2 h3 h4 with
        | none => none
        | some n =>
          if 0xd800 ≤ n ∧ n ≤ 0xdbff then
            match r with
            | '\\' :: 'u' :: g1 :: g2 :: g3 :: g4 :: r2 =>
              match hex4 g1 g2 g3 g4 with
              | some m =>
                if 0xdc00 ≤ m ∧ m ≤ 0xdfff then
                  (parseStrChars fuel r2).map (fun p =>
                    (Char.ofNat (0x10000 + (n - 0xd800) * 0x400 + (m - 0xdc00)) :: p.1, p.2))
                else (parseStrChars fuel r).map (fun p => (Char.ofNat n :: p.1, p.2))
              | none => (parseStrChars fuel r).map (fun p => (Char.ofNat n :: p.1, p.2))
            | _ => (parseStrChars fuel r).map (fun p => (Char.ofNat n :: p.1, p.2))
          else (parseStrChars fuel r).map (fun p => (Char.ofNat n :: p.1, p.2))
      | _ => none
    | c :: rest =>
      if c.toNat < 32 then none
      else (parseStrChars fuel rest).map (fun p => (c :: p.1, p.2))

/-- Mode of the JSON value parser: a full value, the member list of an
object (after at least one member is known to follow), or the element list
of an array. -/
inductive PMode where
  | value : PMode
  | members (acc : List (String × Json)) : PMode
  | elems (acc : List Json) : PMode

/-- The JSON grammar, by recursion on fuel. -/
def parseCore : Nat → PMode → List Char → Option (Json × List Char)
  | 0, _, _ => none
  | Nat.succ fuel, PMode.value, s =>
    match skipWs s with
    | [] => none
    | c :: rest =>
      if c = '\x7b' then
        match skipWs rest with
        | '\x7d' :: r => some (Json.obj [], r)
        | _ => parseCore fuel (PMode.members []) rest
      else if c = '[' then
        match skipWs rest with
        | ']' :: r => some (Json.arr [], r)
        | _ => parseCore fuel (PMode.elems []) rest
      else if c = '"' then
        (parseStrChars (Nat.succ fuel) rest).map (fun p => (Json.str (String.mk p.1), p.2))
      else if c = 't' then
        match rest with
        | 'r' :: 'u' :: 'e' :: r => some (Json.bool true, r)
        | _ => none
      else if c = 'f' then
        match rest with
        | 'a' :: 'l' :: 's' :: 'e' :: r => some (Json.bool false, r)
        | _ => none
      else if c = 'n' then
        match rest with
        | 'u' :: 'l' :: 'l' :: r => some (Json.null, r)
        | _ => none
      else
        (parseNumber (c :: rest)).map (fun p => (Json.num p.1, p.2))
  | Nat.succ fuel, PMode.members acc, s =>
    match skipWs s with
    | '"' :: r =>
      match parseStrChars (Nat.succ fuel) r with
      | none => none
      | some (key, r2) =>
        match skipWs r2 with
        | ':' :: r3 =>
          match parseCore fuel PMode.value r3 with
          | none => none
          | some (v, r4) =>
            match skipWs r4 with
            | ',' :: r5 => parseCore fuel (PMode.members (acc ++ [(String.mk key, v)])) r5
            | '\x7d' :: r5 => some (Json.obj (acc ++ [(String.mk key, v)]), r5)
            | _ => none
        | _ => none
    | _ => none
  | Nat.succ fuel, PMode.elems acc, s =>
    match parseCore fuel PMode.value s with
    | none => none
    | some (v, r) =>
      match skipWs r with
      | ',' :: r2 => parseCore fuel (PMode.elems (acc ++ [v])) r2
      | ']' :: r2 => some (Json.arr (acc ++ [v]), r2)
      | _ => none

/-- JSON.parse: parse one value and insist that only whitespace follows. -/
def parseJson (s : List Char) : Option Json :=
  match parseCore (s.length + 2) PMode.value s with
  | some (v, rest) => if skipWs rest = [] then some v else none
  | none => none

/-!  ### The response-cleaning pipeline of parseGeminiResponse  -/

/-- The character class removed by the JS `String.prototype.trim`:
WhiteSpace and LineTerminator code points. -/
def isJsTrimWs (c : Char) : Bool :=
  let n := c.toNat
  n = 9 || n = 10 || n = 11 || n = 12 || n = 13 || n = 32 || n = 160 ||
  n = 0x1680 || (0x2000 ≤ n && n ≤ 0x200a) || n = 0x2028 || n = 0x2029 ||
  n = 0x202f || n = 0x205f || n = 0x3000 || n = 0xfeff

/-- `text.trim()` on a character list. -/
def jsTrim (s : List Char) : List Char :=
  ((s.dropWhile isJsTrimWs).reverse.dropWhile isJsTrimWs).reverse

/-- `if t.startsWith(pat) then t.slice(pat.length)`: one conditional
prefix-removal step of the cleanup in parseGeminiResponse. -/
def stripLeading (pat : List Char) (t : List Char) : List Char :=
  if t.take pat.length = pat then t.drop pat.length else t

/-- `if t.endsWith('```') then t.slice(0, -3)`: the conditional
suffix-removal step of the cleanup in parseGeminiResponse. -/
def stripTrailingFence (t : List Char) : List Char :=
  if t.drop (t.length - 3) = "```".toList ∧ 3 ≤ t.length then
    t.take (t.length - 3)
  else t

/-- Steps 1-3 of the cleanup in parseGeminiResponse: trim, delete a leading
fence marker with a json tag, delete a leading bare fence marker, delete a
trailing fence marker. -/
def stripFences (s : List Char) : List Char :=
  stripTrailingFence (stripLeading ("```".toList) (stripLeading ("```json".toList) (jsTrim s)))

/-- Index of the first occurrence of a character. -/
def firstIdx (b : Char) : List Char → Option Nat
  | [] => none
  | c :: cs => if c = b then some 0 else (firstIdx b cs).map (· + 1)

/-- Index of the last occurrence of a character. -/
def lastIdx (b : Char) (s : List Char) : Option Nat :=
  (firstIdx b s.reverse).map (fun k => s.length - 1 - k)

/-- The greedy regex `/[{][^]*[}]/` used to pull a JSON object out of
surrounding prose: it matches exactly when some closing brace follows the
first opening brace, and the match runs from that first opening brace to
the last closing brace of the whole text. -/
def extractBraces (s : List Char) : Option (List Char) :=
  match firstIdx '\x7b' s, lastIdx '\x7d' s with
  | some i, some j => if i < j then some ((s.drop i).take (j - i + 1)) else none
  | _, _ => none

/-- The whole text-to-JSON-source pipeline of parseGeminiResponse: strip
fences, prefer the brace-extracted substring when the regex matches, trim
again. -/
def cleanPipeline (s : List Char) : List Char :=
  match extractBraces (stripFences s) with
  | some m => jsTrim m
  | none => jsTrim (stripFences s)

/-!  ### Metrics Derivation (calculateAvg / calculateDropoff)  -/

/-- calculateAvg (src/api/analyze.js lines 174-178): `0` for an absent,
null, or otherwise falsy `reps` and for an empty array, else the sum of
`rep[field] || 0` over the array divided by its length.  Two inputs make
the JS code throw a TypeError inside the caller's try block instead of
returning: a truthy non-array argument (the `reps.reduce` call), and a
`null` element of the array (the `rep[field]` access on null).  This total
model maps the former to `0` and gives the latter a `0` contribution via
`jsNumOr0`; every theorem about this function or its callers therefore
carries hypotheses (an array argument, no null element) that keep those
throwing inputs out of scope. -/
def calculateAvg (reps : Option Json) (field : String) : ℚ :=
  match reps with
  | some (Json.arr xs) =>
    if xs.length = 0 then 0
    else xs.foldl (fun acc rep => acc + jsNumOr0 (rep.getField field)) 0 / (xs.length : ℚ)
  | _ => 0

/-- calculateDropoff (src/api/analyze.js lines 180-186): `0` for fewer than
two reps, else `(first - last) / first * 100` over the positional first and
last `velocityScore || 0`, with `0` when the first velocity is `0`. -/
def calculateDropoff (reps : Option Json) : ℚ :=
  match reps with
  | some (Json.arr xs) =>
    if xs.length < 2 then 0
    else
      let firstVelocity := jsNumOr0 (xs[0]?.bind (fun r => r.getField "velocityScore"))
      let lastVelocity := jsNumOr0 (xs[xs.length - 1]?.bind (fun r => r.getField "velocityScore"))
      if firstVelocity = 0 then 0
      else (firstVelocity - lastVelocity) / firstVelocity * 100
  | _ => 0

/-!  ### The Response Normalizer (parseGeminiResponse)  -/

/-- The normalized result object.  Field values are kept as JSON values
because the JS code passes reported values through unchanged. -/
structure NormalizedResult where
  reps : Json
  totalReps : Json
  avgDuration : Json
  avgVelocity : Json
  fastestRep : Json
  slowestRep : Json
  velocityDropoff : Json
  coachingNotes : Json

/-- The reconciliation step of parseGeminiResponse on successfully parsed
data (src/api/analyze.js lines 145-154), field by field with the JS `||`
defaulting chains. -/
def successResult (data : Json) : NormalizedResult :=
  { reps := jsOr (data.getField "reps") (Json.arr [])
    totalReps := jsOr (optChain data "summary" "totalReps")
      (jsOr (jsLength (data.getField "reps")) (Json.num 0))
    avgDuration := jsOr (optChain data "summary" "avgDuration")
      (Json.num (calculateAvg (data.getField "reps") "duration"))
    avgVelocity := jsOr (optChain data "summary" "avgVelocity")
      (Json.num (calculateAvg (data.getField "reps") "velocityScore"))
    fastestRep := jsOr (optChain data "summary" "fastestRep") (Json.num 1)
    slowestRep := jsOr (optChain data "summary" "slowestRep")
      (jsOr (jsLength (data.getField "reps")) (Json.num 1))
    velocityDropoff := jsOr (optChain data "summary" "velocityDropPercent")
      (Json.num (calculateDropoff (data.getField "reps")))
    coachingNotes := jsOr (data.getField "coachingNotes")
      (Json.str "Analysis complete. Review the rep-by-rep data for insights.") }

/-- The catch-block fallback of parseGeminiResponse (src/api/analyze.js
lines 161-170): empty reps, all-zero metrics, and a diagnostic note carrying
`text.substring(0, 300)`. -/
def fallbackResult (text : String) : NormalizedResult :=
  { reps := Json.arr []
    totalReps := Json.num 0
    avgDuration := Json.num 0
    avgVelocity := Json.num 0
    fastestRep := Json.num 0
    slowestRep := Json.num 0
    velocityDropoff := Json.num 0
    coachingNotes := Json.str ("Parse error. Gemini response: " ++ String.mk (text.toList.take 300)) }

/-- parseGeminiResponse (src/api/analyze.js lines 118-172).  A parse
failure takes the catch path; a parse producing JSON `null` also does,
because the reconciliation step starts with the throwing access
`data.reps`.  One residual divergence is inherited from the total model of
calculateAvg: when the parsed data's `reps` field would make the JS
reconciliation throw (a truthy non-array `reps`, or a reps array holding a
`null` element, reached when the corresponding summary fields are falsy),
the JS catch returns the fallback while this model still returns
`successResult`; the theorems about the success path exclude those inputs
by hypothesis (`repsFieldSafe`, or a null-free reps array). -/
def parseGeminiResponse (text : String) : NormalizedResult :=
  match parseJson (cleanPipeline text.toList) with
  | some Json.null => fallbackResult text
  | some data => successResult data
  | none => fallbackResult text

/-!  ### Prompt Compiler and Arm-Pattern Resolver  -/

/-- The protocol object sent by the client (src/app.js getProtocol builds
the numeric fields with parseInt, hence integers). -/
structure Protocol where
  exercise : Option String
  weight : Int
  repsPerSet : Int
  interval : Int
  armPattern : Option String
  startingArm : Option String

/-- getArmContext (src/api/analyze.js lines 101-116).  The two alternating
cases read `protocol.startingArm.toUpperCase()`, which throws a TypeError
when `startingArm` is absent; this is the `Except.error` branch. -/
def getArmContext (protocol : Protocol) : Except String String :=
  if protocol.armPattern = some "left-only" then
    Except.ok "All reps are performed with the LEFT arm."
  else if protocol.armPattern = some "right-only" then
    Except.ok "All reps are performed with the RIGHT arm."
  else if protocol.armPattern = some "alternating-sets" then
    match protocol.startingArm with
    | some arm =>
      Except.ok ("Arms alternate each set (every " ++ toString protocol.interval ++
        " seconds). Starting arm: " ++ arm.toUpper ++ ". So sets 1,3,5... use " ++
        arm ++ ", sets 2,4,6... use the other arm.")
    | none => Except.error "TypeError: cannot read toUpperCase of undefined"
  else if protocol.armPattern = some "alternating-reps" then
    match protocol.startingArm with
    | some arm =>
      Except.ok ("Arms alternate each rep. Starting arm: " ++ arm.toUpper ++ ".")
    | none => Except.error "TypeError: cannot read toUpperCase of undefined"
  else if protocol.armPattern = some "both" then
    Except.ok "This is a two-handed exercise (both arms used simultaneously)."
  else
    Except.ok "Identify which arm is used for each rep based on visual observation."

/-- buildPrompt (src/api/analyze.js lines 63-99): resolve the exercise
display name, resolve the arm context (propagating its TypeError), and
interpolate both with the numeric protocol fields into the fixed template. -/
def buildPrompt (protocol : Protocol) : Except String String :=
  let exerciseName :=
    match protocol.exercise with
    | some "snatch" => "kettlebell snatch"
    | some "swing" => "kettlebell swing"
    | some "clean" => "kettlebell clean"
    | some "clean-press" => "kettlebell clean and press"
    | some "jerk" => "kettlebell jerk"
    | _ => "kettlebell exercise"
  match getArmContext protocol with
  | Except.error e => Except.error e
  | Except.ok armContext =>
    Except.ok ("Analyze this kettlebell video for velocity-based training metrics.\n\nPROTOCOL:\n- Exercise: "
      ++ exerciseName ++ "\n- Weight: " ++ toString protocol.weight
      ++ "kg\n- Expected: " ++ toString protocol.repsPerSet ++ " reps every "
      ++ toString protocol.interval ++ " seconds\n- " ++ armContext
      ++ "\n\nTASK: For each rep, identify the start time (hip hinge/pull), end time (lockout), duration, and estimate velocity on a 1-10 scale.\n\nReturn this exact JSON structure:\n\x7b\n    \"reps\": [\n        \x7b\"repNumber\": 1, \"arm\": \"Left\", \"startTime\": \"00:03.2\", \"endTime\": \"00:04.1\", \"duration\": 0.9, \"velocityScore\": 8\x7d\n    ],\n    \"summary\": \x7b\n        \"totalReps\": 0,\n        \"avgDuration\": 0.0,\n        \"avgVelocity\": 0.0,\n        \"fastestRep\": 1,\n        \"slowestRep\": 1,\n        \"velocityDropPercent\": 0.0\n    \x7d,\n    \"coachingNotes\": \"Brief observation about consistency, fatigue, technique.\"\n\x7d")

/-!  ### The Analysis Orchestrator (handler)  -/

/-- The inbound request as the handler destructures it. -/
structure Request where
  method : String
  video : Option String
  mimeType : Option String
  protocol : Option Protocol

/-- The responses the handler can send. -/
inductive HandlerResponse where
  | errorResponse (status : Nat) (error : String) (message : Option String) : HandlerResponse
  | success (status : Nat) (result : NormalizedResult) : HandlerResponse

/-- JS falsiness of the `video` field: absent or the empty string. -/
def strFalsy : Option String → Bool
  | none => true
  | some s => decide (s = "")

/-- handler (src/api/analyze.js lines 12-61).  The external Gemini call is
abstracted as `aiResult`; every exception inside the try block, including
the TypeError thrown by buildPrompt on a missing starting arm, is caught
and reported as a 500 "Analysis failed" response. -/
def handler (req : Request) (aiResult : Except String String) : HandlerResponse :=
  if req.method ≠ "POST" then
    HandlerResponse.errorResponse 405 "Method not allowed" none
  else
    match req.protocol with
    | none => HandlerResponse.errorResponse 400 "Missing video or protocol data" none
    | some p =>
      if strFalsy req.video then
        HandlerResponse.errorResponse 400 "Missing video or protocol data" none
      else
        match buildPrompt p with
        | Except.error e => HandlerResponse.errorResponse 500 "Analysis failed" (some e)
        | Except.ok _ =>
          match aiResult with
          | Except.error e => HandlerResponse.errorResponse 500 "Analysis failed" (some e)
          | Except.ok text => HandlerResponse.success 200 (parseGeminiResponse text)

end VBT

namespace VBT.Part000

/-- calculateAvg as duplicated in src/unnamed/part_000 lines 184-188; the
body is character-for-character the body of the src/api/analyze.js version. -/
def calculateAvg (reps : Option VBT.Json) (field : String) : ℚ :=
  match reps with
  | some (VBT.Json.arr xs) =>
    if xs.length = 0 then 0
    else xs.foldl (fun acc rep => acc + VBT.jsNumOr0 (rep.getField field)) 0 / (xs.length : ℚ)
  | _ => 0

/-- calculateDropoff as duplicated in src/unnamed/part_000 lines 190-196. -/
def calculateDropoff (reps : Option VBT.Json) : ℚ :=
  match reps with
  | some (VBT.Json.arr xs) =>
    if xs.length < 2 then 0
    else
      let firstVelocity := VBT.jsNumOr0 (xs[0]?.bind (fun r => r.getField "velocityScore"))
      let lastVelocity := VBT.jsNumOr0 (xs[xs.length - 1]?.bind (fun r => r.getField "velocityScore"))
      if firstVelocity = 0 then 0
      else (firstVelocity - lastVelocity) / firstVelocity * 100
  | _ => 0

end VBT.Part000

namespace VBT

set_option maxRecDepth 8192

/-!  ### Predicates used by the claim statements  -/

/-- Neither brace character occurs in the list. -/
def braceFree (l : List Char) : Prop :=
  ∀ c ∈ l, c ≠ '\x7b' ∧ c ≠ '\x7d'

/-- `t` is `s` with a brace-free chunk removed from each end. -/
def braceAffix (s t : List Char) : Prop :=
  ∃ pre suf, braceFree pre ∧ braceFree suf ∧ s = pre ++ t ++ suf

/-- The payload wrapped in a fenced code block with a json language tag. -/
def wrapJsonFence (payload : String) : String :=
  "```json\n" ++ payload ++ "\n```"

/-- The payload wrapped in a bare fenced code block. -/
def wrapBareFence (payload : String) : String :=
  "```\n" ++ payload ++ "\n```"

/-- A `reps` property on which the JS reconciliation step cannot throw: a
falsy value (absent, `null`, `false`, `0`, the empty string) or an array
with no `null` element.  A truthy non-array `reps`, or a `null` array
element, makes the JS `calculateAvg` throw a TypeError, which diverts
`parseGeminiResponse` to its raw-text fallback. -/
def repsFieldSafe : Option Json → Prop
  | none => True
  | some Json.null => True
  | some (Json.bool b) => b = false
  | some (Json.num q) => q = 0
  | some (Json.str s) => s = ""
  | some (Json.arr xs) => Json.null ∉ xs
  | some (Json.obj _) => False

/-- The recognized arm patterns, and a starting arm wherever the pattern
alternates. -/
def validProtocol (p : Protocol) : Prop :=
  p.armPattern ∈ ([some "left-only", some "right-only", some "alternating-sets",
    some "alternating-reps", some "both"] : List (Option String)) ∧
  ((p.armPattern = some "alternating-sets" ∨ p.armPattern = some "alternating-reps") →
    p.startingArm ≠ none)

/-!  ### Helper lemmas  -/

theorem foldl_add_emit (g : Json → ℚ) :
    ∀ (xs : List Json) (a : ℚ), xs.foldl (fun acc r => acc + g r) a = a + (xs.map g).sum
  | [], a => by simp
  | x :: xs, a => by
    simp [List.foldl_cons, foldl_add_emit g xs (a + g x)]
    ring

theorem firstIdx_bound {b : Char} :
    ∀ {l : List Char} {i : Nat}, firstIdx b l = some i → i < l.length := by
  intro l
  induction l with
  | nil => intro i h; simp [firstIdx] at h
  | cons c cs ih =>
    intro i h
    simp only [firstIdx] at h
    by_cases hc : c = b
    · rw [if_pos hc] at h
      simp only [Option.some.injEq] at h
      subst h
      simp
    · rw [if_neg hc] at h
      cases hfc : firstIdx b cs with
      | none => rw [hfc] at h; simp at h
      | some k =>
        rw [hfc] at h
        simp only [Option.map_some', Option.some.injEq] at h
        have := ih hfc
        subst h
        simp only [List.length_cons]
        omega

theorem firstIdx_none_iff {b : Char} :
    ∀ {l : List Char}, firstIdx b l = none ↔ b ∉ l := by
  intro l
  induction l with
  | nil => simp [firstIdx]
  | cons c cs ih =>
    simp only [firstIdx]
    by_cases hc : c = b
    · rw [if_pos hc]
      subst hc
      simp
    · rw [if_neg hc, Option.map_eq_none', ih]
      constructor
      · intro h hmem
        rcases List.mem_cons.mp hmem with rfl | hmem2
        · exact hc rfl
        · exact h hmem2
      · intro h hmem
        exact h (List.mem_cons_of_mem c hmem)

theorem firstIdx_append_skip {b : Char} {xs : List Char} (h : b ∉ xs) (ys : List Char) :
    firstIdx b (xs ++ ys) = (firstIdx b ys).map (· + xs.length) := by
  induction xs with
  | nil =>
    rw [List.nil_append]
    cases hfy : firstIdx b ys <;> simp
  | cons c cs ih =>
    have hc : ¬ (c = b) := fun hcb => h (by rw [hcb]; exact List.mem_cons_self b cs)
    have hb : b ∉ cs := fun hin => h (List.mem_cons_of_mem c hin)
    rw [List.cons_append]
    simp only [firstIdx, if_neg hc, ih hb, Option.map_map]
    cases hfy : firstIdx b ys with
    | none => simp
    | some k =>
      simp only [Option.map_some', Option.some.injEq, Function.comp_apply, List.length_cons]
      omega

theorem firstIdx_append_hit {b : Char} {xs : List Char} {i : Nat}
    (h : firstIdx b xs = some i) (ys : List Char) :
    firstIdx b (xs ++ ys) = some i := by
  induction xs generalizing i with
  | nil => simp [firstIdx] at h
  | cons c cs ih =>
    rw [List.cons_append]
    simp only [firstIdx] at h ⊢
    by_cases hc : c = b
    · rw [if_pos hc] at h ⊢
      exact h
    · rw [if_neg hc] at h ⊢
      cases hfc : firstIdx b cs with
      | none => rw [hfc] at h; simp at h
      | some k =>
        rw [hfc] at h
        simp only [Option.map_some', Option.some.injEq] at h
        rw [ih hfc]
        simp [h]

theorem braceFree_append {a b : List Char} (ha : braceFree a) (hb : braceFree b) :
    braceFree (a ++ b) := by
  intro c hc
  rcases List.mem_append.mp hc with h | h
  · exact ha c h
  · exact hb c h

theorem trimWs_not_brace {c : Char} (h : isJsTrimWs c = true) :
    c ≠ '\x7b' ∧ c ≠ '\x7d' := by
  constructor <;> intro he <;> rw [he] at h <;> simp [isJsTrimWs] at h

theorem braceAffix_refl (s : List Char) : braceAffix s s :=
  ⟨[], [], by intro c hc; simp at hc, by intro c hc; simp at hc, by simp⟩

theorem braceAffix_trans {s t u : List Char} (h1 : braceAffix s t) (h2 : braceAffix t u) :
    braceAffix s u := by
  obtain ⟨p1, s1, hp1, hs1, rfl⟩ := h1
  obtain ⟨p2, s2, hp2, hs2, rfl⟩ := h2
  exact ⟨p1 ++ p2, s2 ++ s1, braceFree_append hp1 hp2, braceFree_append hs2 hs1, by simp⟩

theorem jsTrim_affix (s : List Char) : braceAffix s (jsTrim s) := by
  refine ⟨s.takeWhile isJsTrimWs,
    ((s.dropWhile isJsTrimWs).reverse.takeWhile isJsTrimWs).reverse, ?_, ?_, ?_⟩
  · intro c hc
    exact trimWs_not_brace (List.mem_takeWhile_imp hc)
  · intro c hc
    rw [List.mem_reverse] at hc
    exact trimWs_not_brace (List.mem_takeWhile_imp hc)
  · conv_lhs => rw [← List.takeWhile_append_dropWhile isJsTrimWs s]
    rw [List.append_assoc]
    congr 1
    conv_lhs =>
      rw [← List.reverse_reverse (s.dropWhile isJsTrimWs),
        ← List.takeWhile_append_dropWhile isJsTrimWs (s.dropWhile isJsTrimWs).reverse,
        List.reverse_append]
    rfl

theorem stripLeading_affix (pat t : List Char) (hpat : braceFree pat) :
    braceAffix t (stripLeading pat t) := by
  unfold stripLeading
  split
  · next heq =>
    refine ⟨pat, [], hpat, ?_, ?_⟩
    · intro c hc
      simp at hc
    · rw [List.append_nil]
      conv_lhs => rw [← List.take_append_drop pat.length t]
      rw [heq]
  · exact braceAffix_refl t

theorem stripTrailingFence_affix (t : List Char) : braceAffix t (stripTrailingFence t) := by
  unfold stripTrailingFence
  split
  · next h =>
    refine ⟨[], "```".toList, ?_, ?_, ?_⟩
    · intro c hc
      simp at hc
    · unfold braceFree
      decide
    · rw [List.nil_append]
      conv_lhs => rw [← List.take_append_drop (t.length - 3) t]
      rw [h.1]
  · exact braceAffix_refl t

theorem stripFences_affix (s : List Char) : braceAffix s (stripFences s) := by
  have hjson : braceFree ("```json".toList) := by
    unfold braceFree
    decide
  have hbt : braceFree ("```".toList) := by
    unfold braceFree
    decide
  unfold stripFences
  apply braceAffix_trans (jsTrim_affix s)
  apply braceAffix_trans (stripLeading_affix ("```json".toList) (jsTrim s) hjson)
  apply braceAffix_trans (stripLeading_affix ("```".toList) _ hbt)
  exact stripTrailingFence_affix _

theorem extract_affix {pre suf : List Char} (mid : List Char)
    (hpre : braceFree pre) (hsuf : braceFree suf) :
    extractBraces (pre ++ mid ++ suf) = extractBraces mid := by
  have hpreO : '\x7b' ∉ pre := fun hm => (hpre _ hm).1 rfl
  have hsufO : '\x7b' ∉ suf := fun hm => (hsuf _ hm).1 rfl
  have hpreC : '\x7d' ∉ pre.reverse := fun hm => (hpre _ (List.mem_reverse.mp hm)).2 rfl
  have hsufC : '\x7d' ∉ suf.reverse := fun hm => (hsuf _ (List.mem_reverse.mp hm)).2 rfl
  have hrev : (pre ++ mid ++ suf).reverse = suf.reverse ++ (mid.reverse ++ pre.reverse) := by
    simp [List.reverse_append]
  have hlen : (pre ++ mid ++ suf).length = pre.length + mid.length + suf.length := by
    rw [List.length_append, List.length_append]
  cases hfm : firstIdx '\x7b' mid with
  | none =>
    have hnm : '\x7b' ∉ mid := firstIdx_none_iff.mp hfm
    have htot : firstIdx '\x7b' (pre ++ mid ++ suf) = none := by
      apply firstIdx_none_iff.mpr
      intro hmem
      rcases List.mem_append.mp hmem with h | h
      · rcases List.mem_append.mp h with h2 | h2
        · exact hpreO h2
        · exact hnm h2
      · exact hsufO h
    simp only [extractBraces, htot, hfm]
  | some i =>
    have hi : i < mid.length := firstIdx_bound hfm
    have htot : firstIdx '\x7b' (pre ++ mid ++ suf) = some (i + pre.length) := by
      rw [List.append_assoc, firstIdx_append_skip hpreO, firstIdx_append_hit hfm]
      rfl
    cases hlm : firstIdx '\x7d' mid.reverse with
    | none =>
      have hnm : '\x7d' ∉ mid.reverse := firstIdx_none_iff.mp hlm
      have htot2 : lastIdx '\x7d' (pre ++ mid ++ suf) = none := by
        unfold lastIdx
        rw [hrev]
        rw [firstIdx_none_iff.mpr ?_]
        · rfl
        · intro hmem
          rcases List.mem_append.mp hmem with h | h
          · exact hsufC h
          · rcases List.mem_append.mp h with h2 | h2
            · exact hnm h2
            · exact hpreC h2
      have hmid2 : lastIdx '\x7d' mid = none := by
        unfold lastIdx
        rw [hlm]
        rfl
      simp only [extractBraces, htot, htot2, hmid2, hfm]
    | some k =>
      have hk : k < mid.length := by
        have := firstIdx_bound hlm
        rwa [List.length_reverse] at this
      have htot2 : lastIdx '\x7d' (pre ++ mid ++ suf) =
          some (pre.length + (mid.length - 1 - k)) := by
        unfold lastIdx
        rw [hrev, firstIdx_append_skip hsufC, firstIdx_append_hit hlm]
        simp only [Option.map_some', Option.some.injEq, hlen, List.length_reverse]
        omega
      have hmid2 : lastIdx '\x7d' mid = some (mid.length - 1 - k) := by
        unfold lastIdx
        rw [hlm]
        rfl
      simp only [extractBraces, htot, htot2, hmid2, hfm]
      by_cases hij : i < mid.length - 1 - k
      · have hcond : i + pre.length < pre.length + (mid.length - 1 - k) := by omega
        rw [if_pos hcond, if_pos hij]
        have hidx : pre.length + (mid.length - 1 - k) - (i + pre.length) + 1
            = mid.length - 1 - k - i + 1 := by omega
        rw [hidx]
        have hdrop : (pre ++ mid ++ suf).drop (i + pre.length) = mid.drop i ++ suf := by
          rw [List.append_assoc, Nat.add_comm i pre.length,
            show (pre ++ (mid ++ suf)).drop (pre.length + i) = (mid ++ suf).drop i from by
              simp [List.drop_append]]
          exact List.drop_append_of_le_length (by omega)
        rw [hdrop, List.take_append_of_le_length]
        rw [List.length_drop]
        omega
      · have hcond : ¬ (i + pre.length < pre.length + (mid.length - 1 - k)) := by omega
        rw [if_neg hcond, if_neg hij]

theorem extract_of_affix {s t : List Char} (h : braceAffix s t) :
    extractBraces s = extractBraces t := by
  obtain ⟨pre, suf, hp, hs, rfl⟩ := h
  exact extract_affix t hp hs

theorem cleanPipeline_of_extract {s : List Char} {sub : List Char}
    (h : extractBraces s = some sub) :
    cleanPipeline s = jsTrim sub := by
  have h2 : extractBraces (stripFences s) = some sub :=
    (extract_of_affix (stripFences_affix s)).symm.trans h
  unfold cleanPipeline
  rw [h2]

theorem toList_append (a b : String) : (a ++ b).toList = a.toList ++ b.toList := by
  cases a
  cases b
  rfl

theorem parseGeminiResponse_ok {text : String} {data : Json}
    (hparse : parseJson (cleanPipeline text.toList) = some data) (hnn : data ≠ Json.null) :
    parseGeminiResponse text = successResult data := by
  unfold parseGeminiResponse
  rw [hparse]
  cases data with
  | null => exact absurd rfl hnn
  | bool b => rfl
  | num q => rfl
  | str s => rfl
  | arr xs => rfl
  | obj kvs => rfl

theorem parseGeminiResponse_fail {text : String}
    (h : parseJson (cleanPipeline text.toList) = none ∨
         parseJson (cleanPipeline text.toList) = some Json.null) :
    parseGeminiResponse text = fallbackResult text := by
  unfold parseGeminiResponse
  rcases h with h | h <;> rw [h]

theorem calculateAvg_eq (xs : List Json) (field : String) :
    calculateAvg (some (Json.arr xs)) field =
      if xs.length = 0 then 0
      else (xs.map (fun rep => jsNumOr0 (rep.getField field))).sum / (xs.length : ℚ) := by
  unfold calculateAvg
  dsimp only
  by_cases h : xs.length = 0
  · rw [if_pos h, if_pos h]
  · rw [if_neg h, if_neg h, foldl_add_emit, zero_add]

theorem calculateDropoff_eq (xs : List Json) :
    calculateDropoff (some (Json.arr xs)) =
      if xs.length < 2 then 0
      else
        if jsNumOr0 (xs.headI.getField "velocityScore") = 0 then 0
        else (jsNumOr0 (xs.headI.getField "velocityScore") -
              jsNumOr0 (xs.getLastI.getField "velocityScore")) /
             jsNumOr0 (xs.headI.getField "velocityScore") * 100 := by
  unfold calculateDropoff
  dsimp only
  by_cases hlen : xs.length < 2
  · rw [if_pos hlen, if_pos hlen]
  · rw [if_neg hlen, if_neg hlen]
    cases xs with
    | nil => exact absurd (by norm_num) hlen
    | cons a tail =>
      have hlast : (a :: tail)[(a :: tail).length - 1]? = some ((a :: tail).getLastI) := by
        rw [← List.getLast?_eq_getElem?, List.getLastI_eq_getLast?]
        cases hg : (a :: tail).getLast? with
        | none =>
          rw [List.getLast?_eq_getElem?] at hg
          simp at hg
        | some x => rfl
      have h0 : (a :: tail)[0]? = some a := List.getElem?_cons_zero
      rw [h0, hlast]
      rfl

/-!  ### The claims  -/

/-- Claim C1: on any input whose cleaned text does not parse as JSON (or
parses to the JSON literal `null`, on which the reconciliation step would
throw), parseGeminiResponse does not fail: it returns the fallback result,
whose reps are empty, whose six numeric summary fields are all `0`, and
whose coachingNotes is a non-empty diagnostic string carrying a prefix of
at most 300 characters of the raw input. -/
theorem parseGeminiResponse_malformed_total (text : String)
    (h : parseJson (cleanPipeline text.toList) = none ∨
         parseJson (cleanPipeline text.toList) = some Json.null) :
    parseGeminiResponse text = fallbackResult text ∧
    (parseGeminiResponse text).reps = Json.arr [] ∧
    (parseGeminiResponse text).totalReps = Json.num 0 ∧
    (parseGeminiResponse text).avgDuration = Json.num 0 ∧
    (parseGeminiResponse text).avgVelocity = Json.num 0 ∧
    (parseGeminiResponse text).fastestRep = Json.num 0 ∧
    (parseGeminiResponse text).slowestRep = Json.num 0 ∧
    (parseGeminiResponse text).velocityDropoff = Json.num 0 ∧
    (parseGeminiResponse text).coachingNotes =
      Json.str ("Parse error. Gemini response: " ++ String.mk (text.toList.take 300)) ∧
    ("Parse error. Gemini response: " ++ String.mk (text.toList.take 300)) ≠ "" ∧
    (String.mk (text.toList.take 300)).length ≤ 300 ∧
    text.toList.take 300 ++ text.toList.drop 300 = text.toList := by
  have hfb := parseGeminiResponse_fail h
  refine ⟨hfb, ?_, ?_, ?_, ?_, ?_, ?_, ?_, ?_, ?_, ?_, ?_⟩
  · rw [hfb]; rfl
  · rw [hfb]; rfl
  · rw [hfb]; rfl
  · rw [hfb]; rfl
  · rw [hfb]; rfl
  · rw [hfb]; rfl
  · rw [hfb]; rfl
  · rw [hfb]; rfl
  · intro heq
    have hlen := congrArg String.length heq
    rw [String.length_append] at hlen
    have h30 : ("Parse error. Gemini response: " : String).length = 30 := rfl
    have h0 : ("" : String).length = 0 := rfl
    omega
  · have hmk : (String.mk (text.toList.take 300)).length = (text.toList.take 300).length := rfl
    rw [hmk, List.length_take]
    exact min_le_left _ _
  · exact List.take_append_drop 300 text.toList

/-- Witness for C1 at the concrete non-JSON input "not json at all". -/
theorem parseGeminiResponse_malformed_total_witness :
    parseGeminiResponse "not json at all" = fallbackResult "not json at all" :=
  (parseGeminiResponse_malformed_total "not json at all" (Or.inl rfl)).1

/-- Claim C2 counterexample: a well-formed response in the documented shape
that reports `totalReps: 0` is normalized to `totalReps = 1` (the length of
the reps array): the JS `||` defaulting treats the reported `0` as absent,
so recomputation does override an explicitly reported summary field. -/
theorem parseGeminiResponse_zero_summary_overridden :
    parseJson (cleanPipeline ("\x7b\"reps\":[\x7b\"repNumber\":1,\"duration\":2,\"velocityScore\":4\x7d],\"summary\":\x7b\"totalReps\":0,\"avgDuration\":2,\"avgVelocity\":4,\"fastestRep\":1,\"slowestRep\":1,\"velocityDropPercent\":5\x7d,\"coachingNotes\":\"ok\"\x7d" : String).toList)
      = some (Json.obj
          [("reps", Json.arr [Json.obj
              [("repNumber", Json.num 1), ("duration", Json.num 2), ("velocityScore", Json.num 4)]]),
           ("summary", Json.obj
              [("totalReps", Json.num 0), ("avgDuration", Json.num 2), ("avgVelocity", Json.num 4),
               ("fastestRep", Json.num 1), ("slowestRep", Json.num 1), ("velocityDropPercent", Json.num 5)]),
           ("coachingNotes", Json.str "ok")]) ∧
    (parseGeminiResponse "\x7b\"reps\":[\x7b\"repNumber\":1,\"duration\":2,\"velocityScore\":4\x7d],\"summary\":\x7b\"totalReps\":0,\"avgDuration\":2,\"avgVelocity\":4,\"fastestRep\":1,\"slowestRep\":1,\"velocityDropPercent\":5\x7d,\"coachingNotes\":\"ok\"\x7d").totalReps
      = Json.num 1 ∧
    Json.num (1 : ℚ) ≠ Json.num 0 := by
  refine ⟨rfl, rfl, ?_⟩
  intro h
  exact one_ne_zero (Json.num.inj h)

/-- Claim C2 (amended): for a well-formed response in the documented shape
whose reported summary values are all nonzero and whose coachingNotes is
non-empty, normalization returns exactly the reported fields (a reported
`0` or empty string is falsy in JS and is replaced by the recomputed or
default value, as the counterexample shows). -/
theorem parseGeminiResponse_roundtrip_truthy
    (text : String) (kvs skvs : List (String × Json)) (reps : List Json)
    (tr ad av fr sr vdp : ℚ) (notes : String)
    (hparse : parseJson (cleanPipeline text.toList) = some (Json.obj kvs))
    (hreps : objLookup kvs "reps" = some (Json.arr reps))
    (hsum : objLookup kvs "summary" = some (Json.obj skvs))
    (htr : objLookup skvs "totalReps" = some (Json.num tr)) (htr0 : tr ≠ 0)
    (had : objLookup skvs "avgDuration" = some (Json.num ad)) (had0 : ad ≠ 0)
    (hav : objLookup skvs "avgVelocity" = some (Json.num av)) (hav0 : av ≠ 0)
    (hfr : objLookup skvs "fastestRep" = some (Json.num fr)) (hfr0 : fr ≠ 0)
    (hsr : objLookup skvs "slowestRep" = some (Json.num sr)) (hsr0 : sr ≠ 0)
    (hvdp : objLookup skvs "velocityDropPercent" = some (Json.num vdp)) (hvdp0 : vdp ≠ 0)
    (hnotes : objLookup kvs "coachingNotes" = some (Json.str notes)) (hn0 : notes ≠ "") :
    parseGeminiResponse text =
      { reps := Json.arr reps
        totalReps := Json.num tr
        avgDuration := Json.num ad
        avgVelocity := Json.num av
        fastestRep := Json.num fr
        slowestRep := Json.num sr
        velocityDropoff := Json.num vdp
        coachingNotes := Json.str notes } := by
  rw [parseGeminiResponse_ok hparse (fun hnull => Json.noConfusion hnull)]
  unfold successResult
  simp [optChain, Json.getField, jsOr, jsTruthy, hreps, hsum, htr, had, hav, hfr, hsr, hvdp,
    hnotes, htr0, had0, hav0, hfr0, hsr0, hvdp0, hn0]

/-- Witness for the amended C2 at a concrete all-truthy response. -/
theorem parseGeminiResponse_roundtrip_truthy_witness :
    parseGeminiResponse "\x7b\"reps\":[\x7b\"repNumber\":1,\"duration\":2,\"velocityScore\":4\x7d],\"summary\":\x7b\"totalReps\":1,\"avgDuration\":2,\"avgVelocity\":4,\"fastestRep\":1,\"slowestRep\":1,\"velocityDropPercent\":5\x7d,\"coachingNotes\":\"ok\"\x7d"
      = { reps := Json.arr [Json.obj
            [("repNumber", Json.num 1), ("duration", Json.num 2), ("velocityScore", Json.num 4)]]
          totalReps := Json.num 1
          avgDuration := Json.num 2
          avgVelocity := Json.num 4
          fastestRep := Json.num 1
          slowestRep := Json.num 1
          velocityDropoff := Json.num 5
          coachingNotes := Json.str "ok" } :=
  parseGeminiResponse_roundtrip_truthy _
    [("reps", Json.arr [Json.obj
        [("repNumber", Json.num 1), ("duration", Json.num 2), ("velocityScore", Json.num 4)]]),
     ("summary", Json.obj
        [("totalReps", Json.num 1), ("avgDuration", Json.num 2), ("avgVelocity", Json.num 4),
         ("fastestRep", Json.num 1), ("slowestRep", Json.num 1), ("velocityDropPercent", Json.num 5)]),
     ("coachingNotes", Json.str "ok")]
    [("totalReps", Json.num 1), ("avgDuration", Json.num 2), ("avgVelocity", Json.num 4),
     ("fastestRep", Json.num 1), ("slowestRep", Json.num 1), ("velocityDropPercent", Json.num 5)]
    [Json.obj [("repNumber", Json.num 1), ("duration", Json.num 2), ("velocityScore", Json.num 4)]]
    1 2 4 1 1 5 "ok"
    rfl rfl rfl
    rfl one_ne_zero rfl two_ne_zero rfl (by norm_num)
    rfl one_ne_zero rfl one_ne_zero rfl (by norm_num)
    rfl (by decide)

/-- Claim C3 (code bug): the handler validates only the presence of `video`
and `protocol`; with an alternating armPattern and a missing startingArm the
request passes validation, buildPrompt runs and throws a TypeError, and the
failure is reported as a 500 "Analysis failed" processing error instead of
the caller error that the spec requires. -/
theorem handler_missing_startingArm_500 :
    ∀ aiResult : Except String String,
      handler ⟨"POST", some "dmlkZW8=", some "video/mp4",
          some ⟨some "swing", 16, 5, 30, some "alternating-sets", none⟩⟩ aiResult
      = HandlerResponse.errorResponse 500 "Analysis failed"
          (some "TypeError: cannot read toUpperCase of undefined") :=
  fun _ => rfl

/-- Claim C4: calculateDropoff returns `(first - last) / first * 100` over
the positional first and last velocity scores, `0` when fewer than two reps
exist or when the first velocity score is `0`, and `50` on velocity scores
`[8, 7, 6, 4]`. -/
theorem calculateDropoff_spec :
    calculateDropoff none = 0 ∧
    (∀ xs : List Json,
      calculateDropoff (some (Json.arr xs)) =
        if xs.length < 2 then 0
        else
          if jsNumOr0 (xs.headI.getField "velocityScore") = 0 then 0
          else (jsNumOr0 (xs.headI.getField "velocityScore") -
                jsNumOr0 (xs.getLastI.getField "velocityScore")) /
               jsNumOr0 (xs.headI.getField "velocityScore") * 100) ∧
    calculateDropoff (some (Json.arr
      [Json.obj [("velocityScore", Json.num 8)], Json.obj [("velocityScore", Json.num 7)],
       Json.obj [("velocityScore", Json.num 6)], Json.obj [("velocityScore", Json.num 4)]])) = 50 := by
  refine ⟨rfl, calculateDropoff_eq, ?_⟩
  rw [calculateDropoff_eq]
  norm_num [List.headI, List.getLastI, Json.getField, objLookup, jsNumOr0]

/-- Claim C5: with a reps array present and the summary object missing,
the normalizer fills avgDuration and avgVelocity with the Metrics
Derivation averages over the reps, defaults fastestRep to 1, and defaults
slowestRep to the length of the reps array.  The reps array is required to
contain no JSON `null` element: a null element would make the JS
calculateAvg throw (the `rep[field]` access on null is a TypeError) and the
catch would return the fallback instead of the repaired result, an error
path this total model does not reproduce; the hypothesis restricts the
statement to arrays of Rep objects as in the data model, where the JS and
the model agree. -/
theorem parseGeminiResponse_missing_summary_repair
    (text : String) (kvs : List (String × Json)) (xs : List Json)
    (hparse : parseJson (cleanPipeline text.toList) = some (Json.obj kvs))
    (hsum : objLookup kvs "summary" = none)
    (hreps : objLookup kvs "reps" = some (Json.arr xs))
    (hne : xs ≠ [])
    (_hnull : Json.null ∉ xs) :
    (parseGeminiResponse text).avgDuration =
      Json.num (calculateAvg (some (Json.arr xs)) "duration") ∧
    (parseGeminiResponse text).avgVelocity =
      Json.num (calculateAvg (some (Json.arr xs)) "velocityScore") ∧
    (parseGeminiResponse text).fastestRep = Json.num 1 ∧
    (parseGeminiResponse text).slowestRep = Json.num (xs.length : ℚ) := by
  rw [parseGeminiResponse_ok hparse (fun hnull => Json.noConfusion hnull)]
  have hlen : (xs.length : ℚ) ≠ 0 :=
    Nat.cast_ne_zero.mpr (fun h0 => hne (List.length_eq_zero.mp h0))
  unfold successResult
  simp [optChain, Json.getField, jsOr, jsTruthy, jsLength, hsum, hreps, hlen]

/-- Witness for C5 at a concrete summary-less response with two reps. -/
theorem parseGeminiResponse_missing_summary_repair_witness :
    (parseGeminiResponse "\x7b\"reps\":[\x7b\"duration\":1,\"velocityScore\":8\x7d,\x7b\"duration\":3,\"velocityScore\":6\x7d]\x7d").avgDuration
      = Json.num (calculateAvg (some (Json.arr
          [Json.obj [("duration", Json.num 1), ("velocityScore", Json.num 8)],
           Json.obj [("duration", Json.num 3), ("velocityScore", Json.num 6)]])) "duration") ∧
    (parseGeminiResponse "\x7b\"reps\":[\x7b\"duration\":1,\"velocityScore\":8\x7d,\x7b\"duration\":3,\"velocityScore\":6\x7d]\x7d").avgVelocity
      = Json.num (calculateAvg (some (Json.arr
          [Json.obj [("duration", Json.num 1), ("velocityScore", Json.num 8)],
           Json.obj [("duration", Json.num 3), ("velocityScore", Json.num 6)]])) "velocityScore") ∧
    (parseGeminiResponse "\x7b\"reps\":[\x7b\"duration\":1,\"velocityScore\":8\x7d,\x7b\"duration\":3,\"velocityScore\":6\x7d]\x7d").fastestRep
      = Json.num 1 ∧
    (parseGeminiResponse "\x7b\"reps\":[\x7b\"duration\":1,\"velocityScore\":8\x7d,\x7b\"duration\":3,\"velocityScore\":6\x7d]\x7d").slowestRep
      = Json.num ((2 : ℕ) : ℚ) :=
  parseGeminiResponse_missing_summary_repair _
    [("reps", Json.arr
        [Json.obj [("duration", Json.num 1), ("velocityScore", Json.num 8)],
         Json.obj [("duration", Json.num 3), ("velocityScore", Json.num 6)]])]
    [Json.obj [("duration", Json.num 1), ("velocityScore", Json.num 8)],
     Json.obj [("duration", Json.num 3), ("velocityScore", Json.num 6)]]
    rfl rfl rfl (List.cons_ne_nil _ _) (by simp)

/-- Claim C6 counterexample: wrapping a payload in a fenced code block is
NOT result-preserving in general: a payload that fails to parse yields a
fallback whose coachingNotes embeds the raw input, fences included, so the
wrapped and unwrapped inputs normalize differently. -/
theorem parseGeminiResponse_fence_not_identity :
    (parseGeminiResponse "```json\nhello\n```").coachingNotes ≠
      (parseGeminiResponse "hello").coachingNotes := by
  have h1 : (parseGeminiResponse "```json\nhello\n```").coachingNotes =
      Json.str "Parse error. Gemini response: ```json\nhello\n```" := rfl
  have h2 : (parseGeminiResponse "hello").coachingNotes =
      Json.str "Parse error. Gemini response: hello" := rfl
  rw [h1, h2]
  intro h
  exact absurd (Json.str.inj h) (by decide)

/-- Claim C6 (amended): fence wrapping is result-preserving for payloads
that contain an opening brace before the final closing brace, whose
brace-extracted substring parses as a JSON object, and whose reps field
cannot make the reconciliation step throw (absent, falsy, or an array with
no null element); for other payloads the fallback's coachingNotes embeds
the raw text and the two results differ, as the counterexample shows. -/
theorem parseGeminiResponse_fence_invariant
    (payload : String) (sub : List Char) (kvs : List (String × Json))
    (hx : extractBraces payload.toList = some sub)
    (hp : parseJson (jsTrim sub) = some (Json.obj kvs))
    (_hsafe : repsFieldSafe (objLookup kvs "reps")) :
    parseGeminiResponse (wrapJsonFence payload) = parseGeminiResponse payload ∧
    parseGeminiResponse (wrapBareFence payload) = parseGeminiResponse payload := by
  have hpipe : cleanPipeline payload.toList = jsTrim sub := cleanPipeline_of_extract hx
  have hfreeJ : braceFree ("```json\n".toList) := by
    unfold braceFree
    decide
  have hfreeB : braceFree ("```\n".toList) := by
    unfold braceFree
    decide
  have hfreeT : braceFree ("\n```".toList) := by
    unfold braceFree
    decide
  have hwrapJ : (wrapJsonFence payload).toList =
      "```json\n".toList ++ payload.toList ++ "\n```".toList := by
    unfold wrapJsonFence
    rw [toList_append, toList_append]
  have hwrapB : (wrapBareFence payload).toList =
      "```\n".toList ++ payload.toList ++ "\n```".toList := by
    unfold wrapBareFence
    rw [toList_append, toList_append]
  have hxJ : extractBraces (wrapJsonFence payload).toList = some sub := by
    rw [hwrapJ, extract_affix payload.toList hfreeJ hfreeT, hx]
  have hxB : extractBraces (wrapBareFence payload).toList = some sub := by
    rw [hwrapB, extract_affix payload.toList hfreeB hfreeT, hx]
  have hpipeJ : cleanPipeline (wrapJsonFence payload).toList = jsTrim sub :=
    cleanPipeline_of_extract hxJ
  have hpipeB : cleanPipeline (wrapBareFence payload).toList = jsTrim sub :=
    cleanPipeline_of_extract hxB
  constructor
  · rw [parseGeminiResponse_ok (hpipeJ.symm ▸ hp) (fun hnull => Json.noConfusion hnull),
      parseGeminiResponse_ok (hpipe.symm ▸ hp) (fun hnull => Json.noConfusion hnull)]
  · rw [parseGeminiResponse_ok (hpipeB.symm ▸ hp) (fun hnull => Json.noConfusion hnull),
      parseGeminiResponse_ok (hpipe.symm ▸ hp) (fun hnull => Json.noConfusion hnull)]

/-- Witness for the amended C6 at a concrete parsable payload. -/
theorem parseGeminiResponse_fence_invariant_witness :
    parseGeminiResponse (wrapJsonFence "\x7b\"a\":1\x7d") = parseGeminiResponse "\x7b\"a\":1\x7d" ∧
    parseGeminiResponse (wrapBareFence "\x7b\"a\":1\x7d") = parseGeminiResponse "\x7b\"a\":1\x7d" :=
  parseGeminiResponse_fence_invariant "\x7b\"a\":1\x7d" ("\x7b\"a\":1\x7d".toList)
    [("a", Json.num 1)] rfl rfl trivial

/-- Claim C7: calculateAvg is the arithmetic mean of the named field over
the reps, `0` for an absent or empty sequence, and `11/10` on durations
`[0.9, 1.1, 1.3]`. -/
theorem calculateAvg_spec :
    (∀ field : String, calculateAvg none field = 0) ∧
    (∀ (xs : List Json) (field : String),
      calculateAvg (some (Json.arr xs)) field =
        if xs.length = 0 then 0
        else (xs.map (fun rep => jsNumOr0 (rep.getField field))).sum / (xs.length : ℚ)) ∧
    calculateAvg (some (Json.arr
      [Json.obj [("duration", Json.num (9/10))], Json.obj [("duration", Json.num (11/10))],
       Json.obj [("duration", Json.num (13/10))]])) "duration" = 11/10 := by
  refine ⟨fun _ => rfl, calculateAvg_eq, ?_⟩
  rw [calculateAvg_eq]
  norm_num [Json.getField, objLookup, jsNumOr0]

/-- Claim C8: the Prompt Compiler is a pure function, so equal protocols
produce byte-identical prompt text, and on every valid enumeration of
armPattern (with a starting arm where alternation requires one) it
produces a prompt rather than throwing. -/
theorem buildPrompt_deterministic :
    (∀ p q : Protocol, p = q → buildPrompt p = buildPrompt q) ∧
    (∀ p : Protocol, validProtocol p → ∃ prompt : String, buildPrompt p = Except.ok prompt) := by
  constructor
  · intro p q h
    rw [h]
  · intro p hv
    obtain ⟨hmem, hstart⟩ := hv
    have hctx : ∃ ctx, getArmContext p = Except.ok ctx := by
      simp only [List.mem_cons, List.mem_singleton, List.not_mem_nil, or_false] at hmem
      unfold getArmContext
      rcases hmem with harm | harm | harm | harm | harm
      · rw [if_pos harm]
        exact ⟨_, rfl⟩
      · rw [if_neg (by simp [harm]), if_pos harm]
        exact ⟨_, rfl⟩
      · obtain ⟨arm, harm2⟩ := Option.ne_none_iff_exists'.mp (hstart (Or.inl harm))
        rw [if_neg (by simp [harm]), if_neg (by simp [harm]), if_pos harm, harm2]
        exact ⟨_, rfl⟩
      · obtain ⟨arm, harm2⟩ := Option.ne_none_iff_exists'.mp (hstart (Or.inr harm))
        rw [if_neg (by simp [harm]), if_neg (by simp [harm]), if_neg (by simp [harm]),
          if_pos harm, harm2]
        exact ⟨_, rfl⟩
      · rw [if_neg (by simp [harm]), if_neg (by simp [harm]), if_neg (by simp [harm]),
          if_neg (by simp [harm]), if_pos harm]
        exact ⟨_, rfl⟩
    obtain ⟨ctx, hc⟩ := hctx
    unfold buildPrompt
    rw [hc]
    exact ⟨_, rfl⟩

/-- Witness for C8 at a concrete valid protocol. -/
theorem buildPrompt_deterministic_witness :
    buildPrompt ⟨some "swing", 16, 5, 30, some "both", none⟩ =
      buildPrompt ⟨some "swing", 16, 5, 30, some "both", none⟩ ∧
    ∃ prompt, buildPrompt ⟨some "swing", 16, 5, 30, some "both", none⟩ = Except.ok prompt :=
  ⟨buildPrompt_deterministic.1 _ _ rfl,
   buildPrompt_deterministic.2 _ (by unfold validProtocol; exact ⟨by decide, by decide⟩)⟩

/-- Claim C9: getArmContext never errors on an unrecognized or missing
armPattern: it returns the visual-observation inference instruction. -/
theorem getArmContext_default_no_error (p : Protocol)
    (h : p.armPattern ∉ ([some "left-only", some "right-only", some "alternating-sets",
      some "alternating-reps", some "both"] : List (Option String))) :
    getArmContext p =
      Except.ok "Identify which arm is used for each rep based on visual observation." := by
  simp only [List.mem_cons, List.mem_singleton, List.not_mem_nil, or_false, not_or] at h
  obtain ⟨h1, h2, h3, h4, h5⟩ := h
  unfold getArmContext
  rw [if_neg h1, if_neg h2, if_neg h3, if_neg h4, if_neg h5]

/-- Witness for C9 at a missing armPattern. -/
theorem getArmContext_default_no_error_witness :
    getArmContext ⟨none, 16, 5, 30, none, none⟩ =
      Except.ok "Identify which arm is used for each rep based on visual observation." :=
  getArmContext_default_no_error _ (by decide)

/-- Claim C10: the Metrics Derivation functions duplicated in the two
source files are extensionally equal. -/
theorem metrics_versions_extensionally_equal :
    (∀ (reps : Option Json) (field : String),
      calculateAvg reps field = Part000.calculateAvg reps field) ∧
    (∀ reps : Option Json, calculateDropoff reps = Part000.calculateDropoff reps) :=
  ⟨fun _ _ => rfl, fun _ => rfl⟩

end VBT

